import Mathlib

/-!
# Verification of the rusty_trader execution and consolidation core

A shallow embedding, in Lean 4, of the execution-attribution pipeline, the
order-update stream consumer, the target-diff order handler, the 5-second to
5-minute bar consolidator, the batch-ingest loop and the row-count query of
the rusty_trader trading application, together with theorems settling the
specification claims about those components.

Conventions of the embedding:
* Rust `f64` fields (prices, quantities, volumes) are modelled as `ℚ`; all
  arithmetic performed on them by the embedded code (add, sub, mul, div, abs,
  max, min, comparisons) is exact rational arithmetic, preserving branch
  behaviour at every input considered here.
* Rust `i32`/`i64` are modelled as `Int`, with explicit wrapping (mod `2^32`)
  where the source performs an unchecked cast or wrapping arithmetic.
* Database tables are modelled as lists of rows; `create` (which errors and
  is only logged on a primary-key conflict), `create_or_ignore`,
  `update`-by-primary-key and `delete`-by-primary-key become the
  corresponding list operations.
* A Rust `panic!`/`expect` failure is modelled as `none` / a dedicated
  `panicked` result constructor.
* Timestamps that the code merely copies (the execution-time string sent by
  the broker) are kept as raw strings; the chrono parse to UTC is not
  modelled, as no claim depends on it.
-/

namespace RustyTrader

/-! ## Broker-side data (ibapi `ExecutionData`, `Contract`) -/

/-- The security type of a contract (ibapi `SecurityType`, restricted to the
variants the code distinguishes). -/
inductive SecurityType
  | stock
  | future
  | forexPair
  | option
  | other
  deriving Repr, DecidableEq

/-- ibapi `Contract`, restricted to the fields the embedded handlers read. -/
structure Contract where
  symbol : String
  primaryExchange : String
  securityType : SecurityType
  deriving Repr, DecidableEq

/-- The order action of an ibapi `Order` (`Action::Buy` / `Action::Sell`). -/
inductive Action
  | buy
  | sell
  deriving Repr, DecidableEq

/-- ibapi `Order`, restricted to the fields the embedded handlers read. -/
structure Order where
  action : Action
  totalQuantity : ℚ
  deriving Repr, DecidableEq

/-- ibapi `Execution` (the fields used by the attribution pipeline). -/
structure Execution where
  permId : Int
  orderId : Int
  executionId : String
  time : String
  side : String
  shares : ℚ
  price : ℚ
  averagePrice : ℚ
  cumulativeQuantity : ℚ
  deriving Repr, DecidableEq

/-- ibapi `ExecutionData`: an execution together with its contract. -/
structure ExecutionData where
  execution : Execution
  contract : Contract
  deriving Repr, DecidableEq

/-- `ExecutionSide` from `database/models.rs`. -/
inductive ExecutionSide
  | bought
  | sold
  deriving Repr, DecidableEq

/-- `ExecutionSide::from_str` (models.rs): "BOT" is a buy, "SLD" a sell, and
any other string panics — modelled as `none`. -/
def ExecutionSide.fromStr (side : String) : Option ExecutionSide :=
  if side = "BOT" then some ExecutionSide.bought
  else if side = "SLD" then some ExecutionSide.sold
  else none

/-! ## Database rows (`database/models.rs`) -/

/-- A row of `trading.open_stock_orders`; primary key
`(order_perm_id, order_id)`. -/
structure OpenStockOrders where
  order_perm_id : Int
  order_id : Int
  strategy : String
  stock : String
  primary_exchange : String
  time : String
  quantity : ℚ
  executions : List String
  filled : ℚ
  deriving Repr, DecidableEq

/-- A row of `trading.stock_transactions`; primary key `execution_id`. -/
structure StockTransactions where
  execution_id : String
  strategy : String
  stock : String
  primary_exchange : String
  order_perm_id : Int
  time : String
  price : ℚ
  quantity : ℚ
  fees : ℚ
  deriving Repr, DecidableEq

/-- A row of `trading.current_stock_positions`; primary key
`(stock, primary_exchange, strategy)`. -/
structure CurrentStockPositions where
  stock : String
  primary_exchange : String
  strategy : String
  quantity : ℚ
  avg_price : ℚ
  deriving Repr, DecidableEq

/-! ## Table primitives

The generic CRUD substrate (`database/crud.rs`), specialised to the three
tables above.  `create` fails (and the caller only logs) on a primary-key
conflict, so its net effect on the table is insert-if-absent. -/

/-- `open_stock_orders_crud.read` by primary key `(perm_id, order_id)`. -/
def readOpenOrder (tbl : List OpenStockOrders) (permId orderId : Int) :
    Option OpenStockOrders :=
  tbl.find? (fun o => o.order_perm_id == permId && o.order_id == orderId)

/-- `open_stock_orders_crud.delete` by primary key. -/
def deleteOpenOrder (tbl : List OpenStockOrders) (permId orderId : Int) :
    List OpenStockOrders :=
  tbl.filter (fun o => !(o.order_perm_id == permId && o.order_id == orderId))

/-- `open_stock_orders_crud.update` by primary key, setting the `filled` and
`executions` columns (the handler passes every other column unchanged). -/
def updateOpenOrderRow (tbl : List OpenStockOrders) (permId orderId : Int)
    (filled : ℚ) (executions : List String) : List OpenStockOrders :=
  tbl.map (fun o =>
    if o.order_perm_id == permId && o.order_id == orderId then
      { o with filled := filled, executions := executions }
    else o)

/-- `stock_transactions_crud.create`: the insert errors out on an
`execution_id` primary-key conflict and the handler only logs the error, so
the table is unchanged in that case. -/
def createStockTransaction (tbl : List StockTransactions)
    (t : StockTransactions) : List StockTransactions :=
  if tbl.any (fun r => r.execution_id == t.execution_id) then tbl
  else tbl ++ [t]

/-- `current_stock_positions_crud.read` by primary key. -/
def readPosition (tbl : List CurrentStockPositions)
    (stock exch strat : String) : Option CurrentStockPositions :=
  tbl.find? (fun p =>
    p.stock == stock && p.primary_exchange == exch && p.strategy == strat)

/-- `current_stock_positions_crud.update` by primary key, setting `quantity`
and `avg_price`. -/
def updatePositionRow (tbl : List CurrentStockPositions)
    (stock exch strat : String) (quantity avgPrice : ℚ) :
    List CurrentStockPositions :=
  tbl.map (fun p =>
    if p.stock == stock && p.primary_exchange == exch && p.strategy == strat
    then { p with quantity := quantity, avg_price := avgPrice }
    else p)

/-- `current_stock_positions_crud.create` (insert-if-absent, as for
transactions). -/
def createPosition (tbl : List CurrentStockPositions)
    (row : CurrentStockPositions) : List CurrentStockPositions :=
  if tbl.any (fun p =>
      p.stock == row.stock && p.primary_exchange == row.primary_exchange &&
      p.strategy == row.strategy) then tbl
  else tbl ++ [row]

/-- `CurrentStockPositionsCRUD::update_unknown_strat_positions`
(`models_crud/current_stock_positions.rs` lines 198-230): an additive upsert
into the reserved `strategy = "unknown"` bucket.  The SQL inserts
`(strategy, stock, quantity, avg_price) = ("unknown", stock, qty, 0.0)` and
on conflict on `(stock, strategy)` adds `qty` to the existing quantity; the
insert does not supply `primary_exchange`, modelled as the empty string. -/
def update_unknown_strat_positions (tbl : List CurrentStockPositions)
    (stock : String) (qty : ℚ) : List CurrentStockPositions :=
  if tbl.any (fun p => p.stock == stock && p.strategy == "unknown") then
    tbl.map (fun p =>
      if p.stock == stock && p.strategy == "unknown" then
        { p with quantity := p.quantity + qty }
      else p)
  else
    tbl ++ [{ stock := stock, primary_exchange := "", strategy := "unknown",
              quantity := qty, avg_price := 0 }]

/-! ## The position-update rule (C1)

`on_new_stock_execution`, lines 216-268 of
`execution/events/on_execution_updates.rs` (the option handler, lines
493-549, has the identical arithmetic).  Given the existing position row and
the fill, the code computes the new `(quantity, avg_price)` pair.  `none`
models the panic of `ExecutionSide::from_str` on a side other than
"BOT"/"SLD". -/

/-- The `(new_qty, new_avg_price)` computation applied to an existing
current-position row on a fresh execution. -/
def updatePositionOnExecution (posQuantity posAvgPrice : ℚ) (side : String)
    (shares price : ℚ) : Option (ℚ × ℚ) :=
  match ExecutionSide.fromStr side with
  | none => none
  | some sd =>
    if (sd = ExecutionSide.bought ∧ 0 < posQuantity) ∨
       (sd = ExecutionSide.sold ∧ posQuantity < 0) then
      let absCurrentQty := |posQuantity|
      let newQty := absCurrentQty + shares
      some (newQty, (absCurrentQty * posAvgPrice + shares * price) / newQty)
    else
      if |posQuantity| < shares then
        some (shares - |posQuantity|, price)
      else
        some (|posQuantity| - shares, posAvgPrice)

/-! ## The orphan path (C2)

`on_new_stock_execution_no_open_order`
(`execution/events/on_execution_updates.rs` lines 608-675): the transaction
row inserted under `strategy = "unknown"`, and the `(stock, qty)` arguments
the handler passes to `update_unknown_strat_positions`. -/

/-- The pair (transaction row inserted, argument pair passed to
`update_unknown_strat_positions`) produced by the orphan handler. -/
def on_new_stock_execution_no_open_order (ed : ExecutionData) :
    StockTransactions × (String × ℚ) :=
  ({ strategy := "unknown",
     execution_id := ed.execution.executionId,
     order_perm_id := ed.execution.permId,
     stock := ed.contract.symbol,
     primary_exchange := ed.contract.primaryExchange,
     time := ed.execution.time,
     price := ed.execution.averagePrice,
     quantity := if ed.execution.side = "BOT" then ed.execution.shares
                 else -ed.execution.shares,
     fees := 0 },
   (ed.contract.symbol, ed.execution.shares))

/-! ## The open-order update decision (C3)

`on_new_stock_execution`, lines 90-160: on a fresh `execution_id` the open
order is either deleted (broker cumulative quantity equals the absolute
order quantity) or updated with the incremented `filled` and the appended
execution id; a duplicate `execution_id` produces no effect at all. -/

/-- The effect of one execution on the matched open-order row. -/
inductive OpenOrderEffect
  | deleteRow
  | updateRow (filled : ℚ) (executions : List String)
  deriving Repr, DecidableEq

/-- The decision taken on the matched open-order row: `none` when the
execution id is already recorded, otherwise delete or update. -/
def openOrderEffectOnExecution (o : OpenStockOrders) (e : Execution) :
    Option OpenOrderEffect :=
  if o.executions.contains e.executionId then none
  else if e.cumulativeQuantity = |o.quantity| then some OpenOrderEffect.deleteRow
  else some (OpenOrderEffect.updateRow (o.filled + e.shares)
    (o.executions ++ [e.executionId]))

/-! ## The full stock-attribution step (C4) -/

/-- The three tables the stock-attribution pipeline touches. -/
structure AttributionState where
  openStockOrders : List OpenStockOrders
  stockTransactions : List StockTransactions
  currentStockPositions : List CurrentStockPositions
  deriving Repr, DecidableEq

/-- One delivery of an `ExecutionData` to `on_new_stock_execution`
(`execution/events/on_execution_updates.rs` lines 47-312), as a state
transition on the three tables.  The sub-tasks the handler spawns all run to
completion against the same state (their keys are disjoint). -/
def on_new_stock_execution (s : AttributionState) (ed : ExecutionData) :
    AttributionState :=
  match readOpenOrder s.openStockOrders ed.execution.permId
      ed.execution.orderId with
  | some o =>
    if o.executions.contains ed.execution.executionId then s
    else
      let execs := o.executions ++ [ed.execution.executionId]
      let openOrders2 :=
        if ed.execution.cumulativeQuantity = |o.quantity| then
          deleteOpenOrder s.openStockOrders o.order_perm_id o.order_id
        else
          updateOpenOrderRow s.openStockOrders o.order_perm_id o.order_id
            (o.filled + ed.execution.shares) execs
      let txns2 := createStockTransaction s.stockTransactions
        { strategy := o.strategy,
          execution_id := ed.execution.executionId,
          order_perm_id := ed.execution.permId,
          stock := o.stock,
          primary_exchange := o.primary_exchange,
          time := ed.execution.time,
          price := ed.execution.price,
          quantity := if ed.execution.side = "BOT" then ed.execution.shares
                      else -ed.execution.shares,
          fees := 0 }
      let positions2 :=
        match readPosition s.currentStockPositions o.stock
            o.primary_exchange o.strategy with
        | some pos =>
          match updatePositionOnExecution pos.quantity pos.avg_price
              ed.execution.side ed.execution.shares ed.execution.price with
          | some (newQty, newAvg) =>
            updatePositionRow s.currentStockPositions o.stock
              o.primary_exchange o.strategy newQty newAvg
          | none => s.currentStockPositions
        | none =>
          createPosition s.currentStockPositions
            { stock := o.stock, primary_exchange := o.primary_exchange,
              strategy := o.strategy,
              quantity := ed.execution.shares,
              avg_price := ed.execution.price }
      { openStockOrders := openOrders2, stockTransactions := txns2,
        currentStockPositions := positions2 }
  | none =>
    let orphan := on_new_stock_execution_no_open_order ed
    { openStockOrders := s.openStockOrders,
      stockTransactions := createStockTransaction s.stockTransactions
        orphan.1,
      currentStockPositions := update_unknown_strat_positions
        s.currentStockPositions orphan.2.1 orphan.2.2 }

/-! ## The 5-second to 5-minute consolidator (C5)

`Consolidator::on_new_5sec_bar` (`market_data/consolidator.rs` lines
1035-1099).  A 5-second bar carries a unix timestamp; its 5-minute bucket
label is `t - t % 300` (Rust `%` on `i64` truncates toward zero, `Int.tmod`).
The handler appends the new bar to the buffer and, while the bucket of the
front bar differs from the bucket of the new bar, drains the front group of
same-bucket bars and emits one consolidated bar for it. -/

/-- A 5-second realtime bar (ibapi `Bar`), restricted to the fields the
consolidator reads. -/
structure Bar where
  time : Int
  openP : ℚ
  highP : ℚ
  lowP : ℚ
  closeP : ℚ
  volume : ℚ
  deriving Repr, DecidableEq

/-- The 5-minute bucket label of a timestamp:
`latest_bar_timestamp - (latest_bar_timestamp % 300)` with the Rust `%`
(truncated remainder). -/
def bucketNo (t : Int) : Int := t - Int.tmod t 300

/-- An emitted 5-minute bar (the tuple sent on the bar channel, without the
contract and timestamp bookkeeping). -/
structure ConsolidatedBar where
  openP : ℚ
  highP : ℚ
  lowP : ℚ
  closeP : ℚ
  volume : ℚ
  deriving Repr, DecidableEq

/-- The initial accumulator built from the first bar of a bucket
(consolidator.rs lines 1060-1066). -/
def initialConsolidatedBar (b : Bar) : ConsolidatedBar :=
  { openP := b.openP, highP := b.highP, lowP := b.lowP, closeP := b.closeP,
    volume := b.volume }

/-- One iteration of the inner drain loop (consolidator.rs lines 1072-1082):
high and low extend, close tracks the latest bar, volume accumulates, open
stays. -/
def mergeBarStep (acc : ConsolidatedBar) (b : Bar) : ConsolidatedBar :=
  { acc with highP := max acc.highP b.highP, lowP := min acc.lowP b.lowP,
             closeP := b.closeP, volume := acc.volume + b.volume }

/-- The consolidated bar built from a nonempty group `first :: rest` of
buffered bars (the two loops at consolidator.rs lines 1058-1082). -/
def consolidateGroup (first : Bar) (rest : List Bar) : ConsolidatedBar :=
  rest.foldl mergeBarStep (initialConsolidatedBar first)

/-- The outer `while first_bar_no != latest_bar_no` loop (consolidator.rs
lines 1055-1097): repeatedly pop the front group of bars sharing the front
bucket and emit its consolidated bar, stopping when the front bucket equals
the bucket of the newly arrived bar.  Returns the remaining buffer and the
emitted `(bucket, bar)` pairs in emission order.  The `[]` case is
unreachable from `on_new_5sec_bar` (the new bar itself carries the stopping
bucket); the source would panic on `front().unwrap()` there. -/
def drainBuckets : List Bar → Int → List Bar × List (Int × ConsolidatedBar)
  | [], _ => ([], [])
  | b :: rest, latest =>
    if bucketNo b.time = latest then (b :: rest, [])
    else
      let grp := rest.takeWhile (fun x => bucketNo x.time == bucketNo b.time)
      let rest2 := rest.dropWhile (fun x => bucketNo x.time == bucketNo b.time)
      let r := drainBuckets rest2 latest
      (r.1, (bucketNo b.time, consolidateGroup b grp) :: r.2)
termination_by l _ => l.length
decreasing_by
  simp_wf
  have h : (List.dropWhile (fun x => bucketNo x.time == bucketNo b.time)
      rest).length ≤ rest.length :=
    List.Sublist.length_le (List.dropWhile_sublist _)
  omega

/-- `on_new_5sec_bar`: push the bar, then drain completed buckets. -/
def on_new_5sec_bar (collectedBars : List Bar) (bar : Bar) :
    List Bar × List (Int × ConsolidatedBar) :=
  drainBuckets (collectedBars ++ [bar]) (bucketNo bar.time)

/-- Feeding a finite stream of 5-second bars, in order, to an initially
empty buffer; collects every emitted consolidated bar. -/
def runBars (stream : List Bar) : List Bar × List (Int × ConsolidatedBar) :=
  stream.foldl (fun acc b =>
    let r := on_new_5sec_bar acc.1 b
    (r.1, acc.2 ++ r.2)) ([], [])

/-! ## The `qty_diff == 0` branch of the target-diff handler (C6) -/

/-- `OpenStockOrdersCRUD::get_orders_for_strat`
(`models_crud/open_stock_orders.rs` lines 47-66): `SELECT ... FROM
trading.open_stock_orders WHERE strategy = $1` — the only filter is the
strategy; the stock column is not constrained. -/
def get_orders_for_strat (tbl : List OpenStockOrders) (strategy : String) :
    List OpenStockOrders :=
  tbl.filter (fun o => o.strategy == strategy)

/-- The `qty_diff == 0.0` branch of `on_new_stock_qty_diff_for_strat`
(`execution/events/order_events.rs` lines 445-471): for every order returned
by `get_orders_for_strat`, cancel it with the broker and delete its
open-order row.  Returns the table after the deletions together with the
order ids passed to `cancel_order`. -/
def on_new_stock_qty_diff_zero (tbl : List OpenStockOrders)
    (strategy : String) : List OpenStockOrders × List Int :=
  let openOrders := get_orders_for_strat tbl strategy
  (openOrders.foldl (fun t o => deleteOpenOrder t o.order_perm_id o.order_id)
    tbl,
   openOrders.map (fun o => o.order_id))

/-! ## The batch-ingest background loop (C7)

`init_channel` (`database/models_crud/historical_data.rs` lines 33-118). The
loop selects over the row channel, the shutdown channel and a timer; the
flush itself talks to the database, so its success is an oracle parameter
`flushOk` of the step.  The source logs a flush error and then runs
`buffer.clear()` unconditionally in the size and timer branches. -/

/-- A row of `market_data.historical_data` (`HistoricalDataFullKeys`). -/
structure HistoricalData where
  stock : String
  primary_exchange : String
  time : Int
  openP : ℚ
  highP : ℚ
  lowP : ℚ
  closeP : ℚ
  volume : ℚ
  deriving Repr, DecidableEq

/-- `const BATCH_SIZE: usize = 200_000`. -/
def BATCH_SIZE : ℕ := 200000

/-- `const MAX_BATCH_WAIT_MS: u64 = 1000`. -/
def MAX_BATCH_WAIT_MS : ℕ := 1000

/-- One wake-up of the `tokio::select!` in the batch loop. `timerTick`
carries the milliseconds elapsed since the last flush (the value of
`last_flush.elapsed()` at the check). -/
inductive BatchEvent
  | recv (row : HistoricalData)
  | chanClosed
  | shutdownSignal (toShutdown : Bool)
  | timerTick (elapsedMs : ℕ)
  deriving Repr, DecidableEq

/-- The loop state: the pending rows and whether the loop has exited. -/
structure BatchLoopState where
  buffer : List HistoricalData
  finished : Bool
  deriving Repr, DecidableEq

/-- One iteration of the batch-ingest loop.  `flushOk` tells whether the
`flush_batch` call (if any) succeeded; the source only logs a failure.
Returns the next state and whether a flush was attempted. -/
def batchStep (s : BatchLoopState) (ev : BatchEvent) (_flushOk : Bool) :
    BatchLoopState × Bool :=
  match ev with
  | BatchEvent.recv row =>
    let buffer := s.buffer ++ [row]
    if BATCH_SIZE ≤ buffer.length then
      ({ buffer := [], finished := false }, true)
    else
      ({ buffer := buffer, finished := false }, false)
  | BatchEvent.chanClosed =>
    if s.buffer.isEmpty then ({ s with finished := true }, false)
    else ({ s with finished := true }, true)
  | BatchEvent.shutdownSignal toShutdown =>
    if toShutdown then
      if s.buffer.isEmpty then ({ s with finished := true }, false)
      else ({ s with finished := true }, true)
    else (s, false)
  | BatchEvent.timerTick elapsedMs =>
    if !s.buffer.isEmpty && decide (MAX_BATCH_WAIT_MS ≤ elapsedMs) then
      ({ buffer := [], finished := false }, true)
    else (s, false)

/-! ## Order placement (C8)

`place_order` (`execution/place_order.rs` lines 19-52).  The in-memory
`order_map` is modelled as an association list (latest insertion first, as
`HashMap::insert` overwrites); the observable interaction with the broker is
returned as an ordered trace. -/

/-- The two externally visible actions of `place_order`, in program order. -/
inductive PlaceOrderAction
  | mapInsert (orderId : Int)
  | submitToBroker (orderId : Int)
  deriving Repr, DecidableEq

/-- Lookup in the `order_map` association list. -/
def lookupOrder (orderMap : List (Int × (String × Contract × Order)))
    (orderId : Int) : Option (String × Contract × Order) :=
  (orderMap.find? (fun kv => kv.1 == orderId)).map (fun kv => kv.2)

/-- `place_order`: acquire the id, insert into `order_map`, then submit;
a submission failure is logged and returned as an error, leaving the map
entry in place.  `submitOk` is the broker oracle.  Returns (new map, action
trace, result). -/
def place_order (orderMap : List (Int × (String × Contract × Order)))
    (orderId : Int) (strategy : String) (contract : Contract) (order : Order)
    (submitOk : Bool) :
    List (Int × (String × Contract × Order)) × List PlaceOrderAction ×
      Except String Unit :=
  let orderMap2 := (orderId, (strategy, contract, order)) :: orderMap
  (orderMap2,
   [PlaceOrderAction.mapInsert orderId, PlaceOrderAction.submitToBroker orderId],
   if submitOk then Except.ok () else Except.error "Failed to place order")

/-! ## The order-update stream consumer (C9)

`on_order_update_received` (`execution/order_update_stream.rs` lines
85-290), reduced to its observable effect per event. -/

/-- `StatusOfOrderStatus` (order_update_stream.rs lines 22-34). -/
inductive StatusOfOrderStatus
  | apiPending
  | pendingSubmit
  | pendingCancel
  | preSubmitted
  | submitted
  | apiCancelled
  | cancelled
  | filled
  | inactive
  | unknown
  deriving Repr, DecidableEq

/-- `StatusOfOrderStatus::from_str` (order_update_stream.rs lines 36-51).
Note the source maps the string "PreSubmitted" to the `PendingCancel`
variant (line 42), so the `preSubmitted` variant is unreachable. -/
def StatusOfOrderStatus.fromStr (input : String) : StatusOfOrderStatus :=
  if input = "ApiPending" then StatusOfOrderStatus.apiPending
  else if input = "PendingSubmit" then StatusOfOrderStatus.pendingSubmit
  else if input = "PendingCancel" then StatusOfOrderStatus.pendingCancel
  else if input = "PreSubmitted" then StatusOfOrderStatus.pendingCancel
  else if input = "Submitted" then StatusOfOrderStatus.submitted
  else if input = "ApiCancelled" then StatusOfOrderStatus.apiCancelled
  else if input = "Cancelled" then StatusOfOrderStatus.cancelled
  else if input = "Filled" then StatusOfOrderStatus.filled
  else if input = "Inactive" then StatusOfOrderStatus.inactive
  else StatusOfOrderStatus.unknown

/-- The `OrderUpdate` events of the stream (ibapi), restricted to the data
the consumer reads. -/
inductive OrderUpdate
  | orderStatus (orderId : Int) (permId : Int) (status : String)
  | openOrderEvent (orderId : Int) (permId : Int) (stateStatus : String)
  | executionDataEvent (orderId : Int)
  | commissionReport (executionId : String) (commission : ℚ)
  | message (text : String)
  deriving Repr, DecidableEq

/-- The observable effect of handling one `OrderUpdate` event. -/
inductive OrderUpdateOutcome
  | panicked (text : String)
  | logOnly
  | upsertOpenOrderRow (orderId : Int) (permId : Int) (strategy : String)
      (quantity : ℚ)
  | deleteOpenOrderRow (orderId : Int) (permId : Int)
  | runAttribution (orderId : Int)
  | stageCommission (executionId : String) (fees : ℚ)
  deriving Repr, DecidableEq

/-- `on_new_order_submitted` (`execution/events/order_events.rs` lines
51-130): stock, future and forex-pair contracts upsert
(`create_or_ignore`, `filled = 0`, `executions = []`) an OpenStockOrders
row, options an OpenOptionOrders row, with signed quantity
`(-1 if Sell else 1) * total_quantity`; any other security type only logs an
error. -/
def on_new_order_submitted (orderId permId : Int)
    (strategyOrder : String × Contract × Order) : OrderUpdateOutcome :=
  if strategyOrder.2.1.securityType = SecurityType.stock ∨
     strategyOrder.2.1.securityType = SecurityType.future ∨
     strategyOrder.2.1.securityType = SecurityType.forexPair ∨
     strategyOrder.2.1.securityType = SecurityType.option then
    OrderUpdateOutcome.upsertOpenOrderRow orderId permId strategyOrder.1
      ((if strategyOrder.2.2.action = Action.sell then -1 else 1) *
        strategyOrder.2.2.totalQuantity)
  else OrderUpdateOutcome.logOnly

/-- `on_order_cancelled` (`execution/events/order_events.rs` lines
134-176): stock and future contracts delete the OpenStockOrders row,
options delete the OpenOptionOrders row; any other security type (including
forex pairs, which this function does not handle) only logs. -/
def on_order_cancelled (orderId permId : Int)
    (strategyOrder : String × Contract × Order) : OrderUpdateOutcome :=
  if strategyOrder.2.1.securityType = SecurityType.stock ∨
     strategyOrder.2.1.securityType = SecurityType.future then
    OrderUpdateOutcome.deleteOpenOrderRow orderId permId
  else if strategyOrder.2.1.securityType = SecurityType.option then
    OrderUpdateOutcome.deleteOpenOrderRow orderId permId
  else OrderUpdateOutcome.logOnly

/-- The panic message of the `expect` on the `order_map` lookup
(order_update_stream.rs lines 130, 156, 166, 202). -/
def orderMapPanicMsg : String :=
  "Strategy not recorded in order_map for some reason before receiving order submitted event!"

/-- `on_order_update_received` (order_update_stream.rs lines 85-290) as a
function from the `order_map` and the event to the observable outcome.  The
Submitted, ApiCancelled and Cancelled status handlers and the OpenOrder
handler `expect` the map entry — absence panics. -/
def on_order_update_received
    (orderMap : List (Int × (String × Contract × Order)))
    (update : OrderUpdate) : OrderUpdateOutcome :=
  match update with
  | OrderUpdate.orderStatus orderId permId status =>
    match StatusOfOrderStatus.fromStr status with
    | StatusOfOrderStatus.apiPending => OrderUpdateOutcome.logOnly
    | StatusOfOrderStatus.pendingSubmit => OrderUpdateOutcome.logOnly
    | StatusOfOrderStatus.pendingCancel => OrderUpdateOutcome.logOnly
    | StatusOfOrderStatus.preSubmitted => OrderUpdateOutcome.logOnly
    | StatusOfOrderStatus.submitted =>
      match lookupOrder orderMap orderId with
      | none => OrderUpdateOutcome.panicked orderMapPanicMsg
      | some so => on_new_order_submitted orderId permId so
    | StatusOfOrderStatus.apiCancelled =>
      match lookupOrder orderMap orderId with
      | none => OrderUpdateOutcome.panicked orderMapPanicMsg
      | some so => on_order_cancelled orderId permId so
    | StatusOfOrderStatus.cancelled =>
      match lookupOrder orderMap orderId with
      | none => OrderUpdateOutcome.panicked orderMapPanicMsg
      | some so => on_order_cancelled orderId permId so
    | StatusOfOrderStatus.filled => OrderUpdateOutcome.logOnly
    | StatusOfOrderStatus.inactive => OrderUpdateOutcome.logOnly
    | StatusOfOrderStatus.unknown => OrderUpdateOutcome.logOnly
  | OrderUpdate.openOrderEvent orderId permId stateStatus =>
    match lookupOrder orderMap orderId with
    | none => OrderUpdateOutcome.panicked orderMapPanicMsg
    | some so =>
      if stateStatus = "Submitted" ∨ stateStatus = "PreSubmitted" then
        on_new_order_submitted orderId permId so
      else OrderUpdateOutcome.logOnly
  | OrderUpdate.executionDataEvent orderId =>
    OrderUpdateOutcome.runAttribution orderId
  | OrderUpdate.commissionReport executionId commission =>
    OrderUpdateOutcome.stageCommission executionId commission
  | OrderUpdate.message _ => OrderUpdateOutcome.logOnly

/-! ## The N-rows-since query and its backfill caller (C10)

`has_at_least_n_rows_since` (`database/models_crud/historical_data.rs` lines
365-394) runs `SELECT COUNT(*) > $1 ... WHERE stock = $2 AND
primary_exchange = $3 AND time > $4` binding `$1 := (n - 1) as i32` with
`n : u32`.  In a release build `n - 1` wraps modulo `2^32`; in a debug build
it panics for `n = 0`.  The caller `update_at_least_n_days_data`
(`market_data/consolidator.rs` lines 297-308) passes
`(required_num_bars - 39).max(0) as u32`. -/

/-- `2^32`, the modulus of `u32` arithmetic. -/
def U32_MOD : ℕ := 4294967296

/-- Reinterpretation of a `u32` value as `i32` (the Rust `as i32` cast). -/
def toI32 (u : ℕ) : Int :=
  if u < 2147483648 then (u : Int) else (u : Int) - 4294967296

/-- Release-build `u32` subtraction `n - 1` (wrapping). -/
def wrapSubOne (n : ℕ) : ℕ := (n + U32_MOD - 1) % U32_MOD

/-- The number of `market_data.historical_data` rows matching the query
filter: same stock and exchange, strictly newer than the cutoff. -/
def countRowsSince (tbl : List HistoricalData) (stock exch : String)
    (cutoff : Int) : ℕ :=
  (tbl.filter (fun r =>
    r.stock == stock && r.primary_exchange == exch &&
      decide (cutoff < r.time))).length

/-- `has_at_least_n_rows_since`, release build: evaluates
`COUNT(*) > ((n - 1) as i32)` with wrapping subtraction. -/
def has_at_least_n_rows_since (tbl : List HistoricalData)
    (stock exch : String) (cutoff : Int) (n : ℕ) : Bool :=
  decide (toI32 (wrapSubOne n) < (countRowsSince tbl stock exch cutoff : Int))

/-- `has_at_least_n_rows_since`, debug build: the overflow check on `n - 1`
panics for `n = 0` (modelled as `none`). -/
def has_at_least_n_rows_since_debug (tbl : List HistoricalData)
    (stock exch : String) (cutoff : Int) (n : ℕ) : Option Bool :=
  if n = 0 then none
  else some (decide (toI32 (n - 1) < (countRowsSince tbl stock exch cutoff : Int)))

/-- The `required_num_bars` computed by the backward business-day walk of
`update_at_least_n_days_data` (consolidator.rs lines 251-295) for
`days ≥ 1`: 78 bars per prior trading day plus, when today is a trading
day, the number of whole 5-minute bars since 09:00 New York. -/
def requiredNumBars (days : ℕ) (isTradingDayTdy : Bool)
    (minutesSince9am : Int) : Int :=
  (if isTradingDayTdy then minutesSince9am / 5 else 0) + 78 * ((days : Int) - 1)

/-- The third argument the backfill passes to `has_at_least_n_rows_since`:
`(required_num_bars - 39).max(0) as u32` (consolidator.rs line 306). -/
def requiredBarsArg (requiredNum : Int) : ℕ :=
  (max (requiredNum - 39) 0).toNat % U32_MOD

/-! ## Concrete inputs used by the witnesses and counterexamples -/

/-- A buffered open order: strategy "momentum", 5 shares of QQQ, one
execution already recorded. -/
def wOrder : OpenStockOrders :=
  { order_perm_id := 7, order_id := 101, strategy := "momentum",
    stock := "QQQ", primary_exchange := "NASDAQ", time := "t0",
    quantity := 5, executions := ["0001.01"], filled := 3 }

/-- A redelivery of the execution already recorded on `wOrder`. -/
def wExecData : ExecutionData :=
  { execution :=
      { permId := 7, orderId := 101, executionId := "0001.01",
        time := "20250102  10:30:00", side := "BOT", shares := 3,
        price := 10, averagePrice := 10, cumulativeQuantity := 3 },
    contract :=
      { symbol := "QQQ", primaryExchange := "NASDAQ",
        securityType := SecurityType.stock } }

/-- The attribution state holding `wOrder` and nothing else. -/
def wState : AttributionState :=
  { openStockOrders := [wOrder], stockTransactions := [],
    currentStockPositions := [] }

/-- A fresh execution against `wOrder`: 2 more shares bought, cumulative 5
(the order quantity), so the open order is deleted. -/
def wExecFresh : Execution :=
  { permId := 7, orderId := 101, executionId := "0001.02",
    time := "20250102  10:31:00", side := "BOT", shares := 2,
    price := 11, averagePrice := 11, cumulativeQuantity := 5 }

/-- An orphan execution: 2 shares of QQQ sold, no matching open order. -/
def orphanSldExec : ExecutionData :=
  { execution :=
      { permId := 99, orderId := 999, executionId := "0009.01",
        time := "20250102  11:00:00", side := "SLD", shares := 2,
        price := 20, averagePrice := 20, cumulativeQuantity := 2 },
    contract :=
      { symbol := "QQQ", primaryExchange := "NASDAQ",
        securityType := SecurityType.stock } }

/-- Open order of strategy "momentum" on stock "AAA". -/
def c6OrderA : OpenStockOrders :=
  { order_perm_id := 1, order_id := 11, strategy := "momentum",
    stock := "AAA", primary_exchange := "NASDAQ", time := "t1",
    quantity := 5, executions := [], filled := 0 }

/-- Open order of the same strategy on a different stock "BBB". -/
def c6OrderB : OpenStockOrders :=
  { order_perm_id := 2, order_id := 22, strategy := "momentum",
    stock := "BBB", primary_exchange := "NASDAQ", time := "t2",
    quantity := 4, executions := [], filled := 0 }

/-- A concrete historical-data row. -/
def histRow0 : HistoricalData :=
  { stock := "QQQ", primary_exchange := "NASDAQ", time := 0, openP := 1,
    highP := 1, lowP := 1, closeP := 1, volume := 100 }

/-- A helper to build 5-second bars. -/
def mkBar (t : Int) (o h l c v : ℚ) : Bar :=
  { time := t, openP := o, highP := h, lowP := l, closeP := c, volume := v }

/-- The S4 scenario stream of the specification: five 5-second bars inside
the 09:30 bucket (timestamps 34200..34220) followed by one bar at 09:35
(timestamp 34500). -/
def s4Stream : List Bar :=
  [mkBar 34200 10 11 9 (21/2) 1, mkBar 34205 (21/2) 12 10 11 1,
   mkBar 34210 11 11 10 (21/2) 1, mkBar 34215 (21/2) 11 10 (107/10) 1,
   mkBar 34220 (107/10) (109/10) (53/5) (54/5) 1, mkBar 34500 (54/5) 11 10 11 2]

/-! # Theorems -/

/-! ## Claim C1 -/

/-- C1: the claim states that on a fill opposing the position whose shares
exceed the absolute current quantity, the stored average price becomes the
fill price and the stored quantity flips sign to the direction of the fill;
evaluating the embedded position update at the failing input — a long
position of 5 at average 10 hit by a SLD fill of 8 shares at 20 — shows the
code instead stores the positive quantity `shares - |cur_q| = 3` (the sign
is dropped), where the claim requires `-3`. -/
theorem c1_position_update_drops_sign :
    updatePositionOnExecution 5 10 "SLD" 8 20 = some (3, 20) ∧
    (3 : ℚ) ≠ -3 := by
  constructor
  · have habs : |(5 : ℚ)| = 5 := abs_of_pos (by norm_num)
    have hside : ExecutionSide.fromStr "SLD" = some ExecutionSide.sold := rfl
    norm_num [updatePositionOnExecution, hside, habs]
    decide
  · norm_num

/-! ## Claim C2 -/

/-- C2: the claim states that the orphan path books the transaction under
strategy "unknown" with signed quantity and additively upserts the
unknown-strategy current position *by that same signed quantity*.
Evaluating the orphan handler on a SLD execution of 2 shares: the inserted
transaction row carries quantity `-2` (and fees `0`) as claimed, but the
quantity the handler passes to `update_unknown_strat_positions` is the raw
`shares` value `+2`, so the unknown position is incremented by `2`, not
decremented — the position delta is not the signed quantity. -/
theorem c2_orphan_position_delta_unsigned :
    (on_new_stock_execution_no_open_order orphanSldExec).1.strategy =
      "unknown" ∧
    (on_new_stock_execution_no_open_order orphanSldExec).1.quantity = -2 ∧
    (on_new_stock_execution_no_open_order orphanSldExec).1.fees = 0 ∧
    (on_new_stock_execution_no_open_order orphanSldExec).2.2 = 2 ∧
    update_unknown_strat_positions [] "QQQ"
        (on_new_stock_execution_no_open_order orphanSldExec).2.2 =
      [{ stock := "QQQ", primary_exchange := "", strategy := "unknown",
         quantity := 2, avg_price := 0 }] ∧
    (2 : ℚ) ≠ -2 := by
  refine ⟨rfl, by decide, by decide, by decide, by decide, by norm_num⟩

/-! ## Claim C3 -/

/-- C3: for an execution matched to an open order whose execution id is not
yet recorded, the handler deletes the open-order row exactly when the
cumulative quantity delivered by the broker equals the absolute value of
the signed order quantity, and otherwise updates the row, setting `filled`
to the old `filled` plus the fill shares and appending the execution id to
the executions list. -/
theorem c3_open_order_delete_or_update (o : OpenStockOrders) (e : Execution)
    (hnew : o.executions.contains e.executionId = false) :
    (e.cumulativeQuantity = |o.quantity| →
      openOrderEffectOnExecution o e = some OpenOrderEffect.deleteRow) ∧
    (e.cumulativeQuantity ≠ |o.quantity| →
      openOrderEffectOnExecution o e =
        some (OpenOrderEffect.updateRow (o.filled + e.shares)
          (o.executions ++ [e.executionId]))) := by
  have hmem : e.executionId ∉ o.executions := by simpa using hnew
  constructor
  · intro heq
    simp [openOrderEffectOnExecution, hmem, heq]
  · intro hne
    simp [openOrderEffectOnExecution, hmem, hne]

/-- C3 witness: the fresh execution `wExecFresh` against `wOrder` has
cumulative quantity 5 equal to the absolute order quantity, so the decision
is to delete the open-order row. -/
theorem c3_open_order_delete_or_update_witness :
    wOrder.executions.contains wExecFresh.executionId = false ∧
    wExecFresh.cumulativeQuantity = |wOrder.quantity| ∧
    openOrderEffectOnExecution wOrder wExecFresh =
      some OpenOrderEffect.deleteRow :=
  ⟨by decide, by decide,
   (c3_open_order_delete_or_update wOrder wExecFresh (by decide)).1 (by decide)⟩

/-! ## Claim C4 -/

/-- C4: delivering the same `ExecutionData` N ≥ 1 times is idempotent: if
the execution id is already contained in the matched open-order row, the
handler changes none of the three tables, hence the state after N
deliveries equals the state after one delivery. -/
theorem c4_execution_redelivery_idempotent (s : AttributionState)
    (ed : ExecutionData) (o : OpenStockOrders)
    (hfind : readOpenOrder s.openStockOrders ed.execution.permId
      ed.execution.orderId = some o)
    (hdup : o.executions.contains ed.execution.executionId = true) :
    on_new_stock_execution s ed = s ∧
    ∀ n : ℕ, 1 ≤ n →
      (fun t => on_new_stock_execution t ed)^[n] s =
        (fun t => on_new_stock_execution t ed)^[1] s := by
  have hstep : on_new_stock_execution s ed = s := by
    have hmem : ed.execution.executionId ∈ o.executions := by simpa using hdup
    unfold on_new_stock_execution
    rw [hfind]
    simp [hmem]
  refine ⟨hstep, fun n _ => ?_⟩
  rw [Function.iterate_fixed hstep n, Function.iterate_fixed hstep 1]

/-- C4 witness: the state `wState` holds `wOrder`, whose executions list
already contains the id of `wExecData`; one delivery leaves the state
unchanged. -/
theorem c4_execution_redelivery_idempotent_witness :
    (readOpenOrder wState.openStockOrders wExecData.execution.permId
        wExecData.execution.orderId = some wOrder ∧
      wOrder.executions.contains wExecData.execution.executionId = true) ∧
    on_new_stock_execution wState wExecData = wState :=
  ⟨⟨by decide, by decide⟩,
   (c4_execution_redelivery_idempotent wState wExecData wOrder (by decide)
     (by decide)).1⟩

/-! ## Claim C5 -/

/-- The bucket label is 300 times the floor quotient for nonnegative
timestamps (Rust truncated `%` agrees with the euclidean one there). -/

theorem bucketNo_eq_of_nonneg (t : Int) (ht : 0 ≤ t) :
    bucketNo t = 300 * (t / 300) := by
  unfold bucketNo
  rw [Int.tmod_eq_emod ht (by norm_num)]
  omega

theorem bucketNo_mono {s t : Int} (hs : 0 ≤ s) (hst : s ≤ t) :
    bucketNo s ≤ bucketNo t := by
  rw [bucketNo_eq_of_nonneg s hs, bucketNo_eq_of_nonneg t (le_trans hs hst)]
  have h := Int.ediv_le_ediv (by norm_num : (0:ℤ) < 300) hst
  omega

/-- Monotonicity of the bucket label over nonnegative timestamps is proved
above; the next two lemmas compute `takeWhile`/`dropWhile` on a uniform
prefix followed by one failing element. -/

theorem takeWhile_append_singleton {α : Type} (p : α → Bool) (t : List α)
    (x : α) (hall : ∀ y ∈ t, p y = true) (hx : p x = false) :
    (t ++ [x]).takeWhile p = t := by
  induction t with
  | nil => simp [List.takeWhile_cons, hx]
  | cons y ys ih =>
    have hy := hall y (by simp)
    rw [List.cons_append, List.takeWhile_cons, hy]
    simp only [if_true]
    rw [ih (fun z hz => hall z (by simp [hz]))]

theorem dropWhile_append_singleton {α : Type} (p : α → Bool) (t : List α)
    (x : α) (hall : ∀ y ∈ t, p y = true) (hx : p x = false) :
    (t ++ [x]).dropWhile p = [x] := by
  induction t with
  | nil => simp [List.dropWhile_cons, hx]
  | cons y ys ih =>
    have hy := hall y (by simp)
    rw [List.cons_append, List.dropWhile_cons, hy]
    simp only [if_true]
    exact ih (fun z hz => hall z (by simp [hz]))

/-! Behaviour of the drain loop on the two shapes that arise during a
sorted run: a front bar already in the stopping bucket, and a single
uniform group followed by the new bar. -/

theorem drainBuckets_front_eq (latest : Int) (b : Bar) (t : List Bar)
    (h : bucketNo b.time = latest) :
    drainBuckets (b :: t) latest = (b :: t, []) := by
  rw [drainBuckets]
  simp [h]

theorem drainBuckets_single_group (latest : Int) (b : Bar) (t : List Bar)
    (bnew : Bar)
    (hall : ∀ x ∈ b :: t, bucketNo x.time = bucketNo b.time)
    (hne : bucketNo b.time ≠ latest)
    (hnew : bucketNo bnew.time = latest) :
    drainBuckets ((b :: t) ++ [bnew]) latest =
      ([bnew], [(bucketNo b.time, consolidateGroup b t)]) := by
  have htake : (t ++ [bnew]).takeWhile
      (fun x => bucketNo x.time == bucketNo b.time) = t := by
    apply takeWhile_append_singleton
    · intro y hy
      simpa using hall y (by simp [hy])
    · simp only [beq_eq_false_iff_ne, ne_eq]
      rw [hnew]
      exact fun hcontra => hne hcontra.symm
  have hdrop : (t ++ [bnew]).dropWhile
      (fun x => bucketNo x.time == bucketNo b.time) = [bnew] := by
    apply dropWhile_append_singleton
    · intro y hy
      simpa using hall y (by simp [hy])
    · simp only [beq_eq_false_iff_ne, ne_eq]
      rw [hnew]
      exact fun hcontra => hne hcontra.symm
  rw [List.cons_append, drainBuckets]
  rw [if_neg hne]
  simp only [htake, hdrop]
  rw [drainBuckets_front_eq latest bnew [] hnew]

/-! Unfolding one step of the run. -/

theorem runBars_append_singleton (p : List Bar) (b : Bar) :
    runBars (p ++ [b]) =
      ((on_new_5sec_bar (runBars p).1 b).1,
       (runBars p).2 ++ (on_new_5sec_bar (runBars p).1 b).2) := by
  unfold runBars
  rw [List.foldl_append]
  rfl

/-! The fold that builds a consolidated bar realises first-open, max-high,
min-low, last-close and volume-sum. -/

theorem foldl_mergeBarStep_openP (rest : List Bar) (acc : ConsolidatedBar) :
    (rest.foldl mergeBarStep acc).openP = acc.openP := by
  induction rest generalizing acc with
  | nil => rfl
  | cons y ys ih =>
    rw [List.foldl_cons, ih]
    rfl

theorem foldl_mergeBarStep_volume (rest : List Bar) (acc : ConsolidatedBar) :
    (rest.foldl mergeBarStep acc).volume =
      acc.volume + (rest.map Bar.volume).sum := by
  induction rest generalizing acc with
  | nil => simp
  | cons y ys ih =>
    rw [List.foldl_cons, ih]
    simp [mergeBarStep]
    ring

theorem foldl_mergeBarStep_closeP (rest : List Bar) (acc : ConsolidatedBar) :
    (rest.foldl mergeBarStep acc).closeP =
      ((rest.getLast?).map Bar.closeP).getD acc.closeP := by
  induction rest generalizing acc with
  | nil => simp
  | cons y ys ih =>
    rw [List.foldl_cons, ih]
    cases ys with
    | nil => simp [mergeBarStep]
    | cons z zs =>
      cases hw : (z :: zs).getLast? with
      | none =>
        rw [List.getLast?_eq_none_iff] at hw
        exact absurd hw (List.cons_ne_nil z zs)
      | some w => simp [hw]

theorem foldl_mergeBarStep_highP_le (rest : List Bar) (acc : ConsolidatedBar) :
    acc.highP ≤ (rest.foldl mergeBarStep acc).highP ∧
    ∀ x ∈ rest, x.highP ≤ (rest.foldl mergeBarStep acc).highP := by
  induction rest generalizing acc with
  | nil => exact ⟨le_refl _, by simp⟩
  | cons y ys ih =>
    rw [List.foldl_cons]
    obtain ⟨h1, h2⟩ := ih (mergeBarStep acc y)
    have hacc : acc.highP ≤ (mergeBarStep acc y).highP := le_max_left _ _
    have hy : y.highP ≤ (mergeBarStep acc y).highP := le_max_right _ _
    refine ⟨le_trans hacc h1, ?_⟩
    intro x hx
    rcases List.mem_cons.mp hx with rfl | hx
    · exact le_trans hy h1
    · exact h2 x hx

theorem foldl_mergeBarStep_highP_mem (rest : List Bar) (acc : ConsolidatedBar) :
    (rest.foldl mergeBarStep acc).highP = acc.highP ∨
    (rest.foldl mergeBarStep acc).highP ∈ rest.map Bar.highP := by
  induction rest generalizing acc with
  | nil => exact Or.inl rfl
  | cons y ys ih =>
    rw [List.foldl_cons]
    rcases ih (mergeBarStep acc y) with h | h
    · rcases max_choice acc.highP y.highP with hm | hm
      · exact Or.inl (h.trans hm)
      · exact Or.inr (by simp [h.trans hm])
    · exact Or.inr (by simp [List.mem_cons]; right; simpa using h)

theorem foldl_mergeBarStep_lowP_le (rest : List Bar) (acc : ConsolidatedBar) :
    (rest.foldl mergeBarStep acc).lowP ≤ acc.lowP ∧
    ∀ x ∈ rest, (rest.foldl mergeBarStep acc).lowP ≤ x.lowP := by
  induction rest generalizing acc with
  | nil => exact ⟨le_refl _, by simp⟩
  | cons y ys ih =>
    rw [List.foldl_cons]
    obtain ⟨h1, h2⟩ := ih (mergeBarStep acc y)
    have hacc : (mergeBarStep acc y).lowP ≤ acc.lowP := min_le_left _ _
    have hy : (mergeBarStep acc y).lowP ≤ y.lowP := min_le_right _ _
    refine ⟨le_trans h1 hacc, ?_⟩
    intro x hx
    rcases List.mem_cons.mp hx with rfl | hx
    · exact le_trans h1 hy
    · exact h2 x hx

theorem foldl_mergeBarStep_lowP_mem (rest : List Bar) (acc : ConsolidatedBar) :
    (rest.foldl mergeBarStep acc).lowP = acc.lowP ∨
    (rest.foldl mergeBarStep acc).lowP ∈ rest.map Bar.lowP := by
  induction rest generalizing acc with
  | nil => exact Or.inl rfl
  | cons y ys ih =>
    rw [List.foldl_cons]
    rcases ih (mergeBarStep acc y) with h | h
    · rcases min_choice acc.lowP y.lowP with hm | hm
      · exact Or.inl (h.trans hm)
      · exact Or.inr (by simp [h.trans hm])
    · exact Or.inr (by simp [List.mem_cons]; right; simpa using h)

theorem consolidateGroup_spec (f : Bar) (rest : List Bar) :
    (consolidateGroup f rest).openP = f.openP ∧
    ((consolidateGroup f rest).highP ∈ (f :: rest).map Bar.highP ∧
      ∀ x ∈ f :: rest, x.highP ≤ (consolidateGroup f rest).highP) ∧
    ((consolidateGroup f rest).lowP ∈ (f :: rest).map Bar.lowP ∧
      ∀ x ∈ f :: rest, (consolidateGroup f rest).lowP ≤ x.lowP) ∧
    (∃ lastBar, (f :: rest).getLast? = some lastBar ∧
      (consolidateGroup f rest).closeP = lastBar.closeP) ∧
    (consolidateGroup f rest).volume = ((f :: rest).map Bar.volume).sum := by
  refine ⟨foldl_mergeBarStep_openP rest _, ⟨?_, ?_⟩, ⟨?_, ?_⟩, ?_, ?_⟩
  · rcases foldl_mergeBarStep_highP_mem rest (initialConsolidatedBar f) with h | h
    · rw [List.map_cons, List.mem_cons]
      exact Or.inl h
    · rw [List.map_cons, List.mem_cons]
      exact Or.inr h
  · intro x hx
    obtain ⟨h1, h2⟩ := foldl_mergeBarStep_highP_le rest (initialConsolidatedBar f)
    rcases List.mem_cons.mp hx with rfl | hx
    · exact h1
    · exact h2 x hx
  · rcases foldl_mergeBarStep_lowP_mem rest (initialConsolidatedBar f) with h | h
    · rw [List.map_cons, List.mem_cons]
      exact Or.inl h
    · rw [List.map_cons, List.mem_cons]
      exact Or.inr h
  · intro x hx
    obtain ⟨h1, h2⟩ := foldl_mergeBarStep_lowP_le rest (initialConsolidatedBar f)
    rcases List.mem_cons.mp hx with rfl | hx
    · exact h1
    · exact h2 x hx
  · cases hrest : rest.getLast? with
    | none =>
      refine ⟨f, ?_, ?_⟩
      · rw [List.getLast?_eq_none_iff] at hrest
        subst hrest
        rfl
      · rw [consolidateGroup, foldl_mergeBarStep_closeP, hrest]
        rfl
    | some lastBar =>
      refine ⟨lastBar, ?_, ?_⟩
      · have hne : rest ≠ [] := by
          intro h
          rw [h] at hrest
          simp at hrest
        cases rest with
        | nil => exact absurd rfl hne
        | cons z zs => rw [List.getLast?_cons_cons]; exact hrest
      · rw [consolidateGroup, foldl_mergeBarStep_closeP, hrest]
        rfl
  · rw [consolidateGroup, foldl_mergeBarStep_volume]
    simp [initialConsolidatedBar]

/-! The run invariant: after a sorted nonnegative stream, the buffer holds
exactly the bars of the last bucket, every emitted bucket is strictly below
the open one, emitted buckets strictly increase, and each emission
consolidates exactly the stream bars of its bucket. -/

theorem runBars_invariant (p : List Bar) :
    p ≠ [] → (∀ x ∈ p, 0 ≤ x.time) →
    List.Pairwise (fun x y => x.time ≤ y.time) p →
    ∃ last, p.getLast? = some last ∧
      (runBars p).1 =
        p.filter (fun x => bucketNo x.time == bucketNo last.time) ∧
      (runBars p).1 ≠ [] ∧
      (∀ x ∈ p, bucketNo x.time ≤ bucketNo last.time) ∧
      List.Pairwise (· < ·) ((runBars p).2.map Prod.fst) ∧
      ∀ e ∈ (runBars p).2, e.1 < bucketNo last.time ∧
        ∃ f rest, p.filter (fun x => bucketNo x.time == e.1) = f :: rest ∧
          e.2 = consolidateGroup f rest := by
  induction p using List.reverseRecOn with
  | nil => intro hne _ _; exact absurd rfl hne
  | append_singleton l b ih =>
    intro _ hpos hsort
    have hposl : ∀ x ∈ l, 0 ≤ x.time :=
      fun x hx => hpos x (List.mem_append_left _ hx)
    obtain ⟨hsortl, -, hcross⟩ := List.pairwise_append.mp hsort
    have hglast : (l ++ [b]).getLast? = some b := List.getLast?_concat l
    rw [runBars_append_singleton]
    by_cases hl : l = []
    · subst hl
      have hstep : on_new_5sec_bar (runBars ([] : List Bar)).1 b = ([b], []) := by
        unfold on_new_5sec_bar runBars
        rw [List.foldl_nil, List.nil_append]
        exact drainBuckets_front_eq _ b [] rfl
      refine ⟨b, hglast, ?_, ?_, ?_, ?_, ?_⟩
      · rw [hstep]
        simp [runBars]
      · rw [hstep]
        simp
      · intro x hx
        simp only [List.nil_append, List.mem_singleton] at hx
        subst hx
        exact le_refl _
      · rw [hstep]
        simp [runBars]
      · rw [hstep]
        simp [runBars]
    · obtain ⟨last, hlast, hbuf, hbne, hmax, hpw, hems⟩ := ih hl hposl hsortl
      have hlmem : last ∈ l := List.mem_of_mem_getLast? hlast
      have hlastpos : 0 ≤ last.time := hposl last hlmem
      have hlb : last.time ≤ b.time := hcross last hlmem b (by simp)
      have hMB : bucketNo last.time ≤ bucketNo b.time :=
        bucketNo_mono hlastpos hlb
      obtain ⟨h, t, hbt⟩ := List.exists_cons_of_ne_nil hbne
      have hbufmem : ∀ x ∈ (runBars l).1,
          bucketNo x.time = bucketNo last.time := by
        intro x hx
        rw [hbuf] at hx
        simpa using (List.mem_filter.mp hx).2
      have hhead : bucketNo h.time = bucketNo last.time := by
        apply hbufmem
        rw [hbt]
        simp
      by_cases hEq : bucketNo b.time = bucketNo last.time
      · -- the new bar stays in the open bucket: enqueue, no emission
        have hstep : on_new_5sec_bar (runBars l).1 b =
            ((runBars l).1 ++ [b], []) := by
          unfold on_new_5sec_bar
          rw [hbt, List.cons_append]
          rw [drainBuckets_front_eq _ h (t ++ [b]) (hhead.trans hEq.symm)]
        refine ⟨b, hglast, ?_, ?_, ?_, ?_, ?_⟩
        · rw [hstep]
          have hfb : (l ++ [b]).filter
              (fun x => bucketNo x.time == bucketNo b.time) =
              l.filter (fun x => bucketNo x.time == bucketNo b.time) ++ [b] := by
            rw [List.filter_append]
            congr 1
            simp
          rw [hfb, hbuf]
          simp only [hEq]
        · rw [hstep]
          simp
        · intro x hx
          simp only [hEq]
          rcases List.mem_append.mp hx with hx | hx
          · exact hmax x hx
          · simp only [List.mem_singleton] at hx
            subst hx
            exact le_of_eq hEq
        · rw [hstep]
          simpa using hpw
        · rw [hstep]
          simp only [List.append_nil]
          intro e he
          obtain ⟨helt, f, rest, hfil, hcg⟩ := hems e he
          refine ⟨by rw [hEq]; exact helt, f, rest, ?_, hcg⟩
          rw [List.filter_append]
          have hbno : (bucketNo b.time == e.1) = false := by
            rw [beq_eq_false_iff_ne, hEq]
            omega
          simp only [List.filter_cons, List.filter_nil, hbno]
          simpa using hfil
      · -- the new bar opens a later bucket: drain and emit the old group
        have hMlt : bucketNo last.time < bucketNo b.time :=
          lt_of_le_of_ne hMB (fun hc => hEq hc.symm)
        have hall : ∀ x ∈ h :: t, bucketNo x.time = bucketNo h.time := by
          intro x hx
          rw [hhead]
          apply hbufmem
          rw [hbt]
          exact hx
        have hstep : on_new_5sec_bar (runBars l).1 b =
            ([b], [(bucketNo last.time, consolidateGroup h t)]) := by
          unfold on_new_5sec_bar
          rw [hbt]
          rw [drainBuckets_single_group (bucketNo b.time) h t b hall
            (by rw [hhead]; exact fun hc => hEq hc.symm) rfl]
          rw [hhead]
        refine ⟨b, hglast, ?_, ?_, ?_, ?_, ?_⟩
        · rw [hstep]
          rw [List.filter_append]
          have hlnil : l.filter
              (fun x => bucketNo x.time == bucketNo b.time) = [] := by
            rw [List.filter_eq_nil_iff]
            intro x hx
            simp only [beq_iff_eq]
            have := hmax x hx
            omega
          rw [hlnil]
          simp
        · rw [hstep]
          simp
        · intro x hx
          rcases List.mem_append.mp hx with hx | hx
          · exact le_trans (hmax x hx) (le_of_lt hMlt)
          · simp only [List.mem_singleton] at hx
            subst hx
            exact le_refl _
        · rw [hstep]
          simp only [List.map_append, List.map_cons, List.map_nil]
          rw [List.pairwise_append]
          refine ⟨hpw, by simp, ?_⟩
          intro a ha b2 hb2
          simp only [List.mem_singleton] at hb2
          subst hb2
          obtain ⟨e, he, rfl⟩ := List.mem_map.mp ha
          exact (hems e he).1
        · rw [hstep]
          intro e he
          rcases List.mem_append.mp he with he | he
          · obtain ⟨helt, f, rest, hfil, hcg⟩ := hems e he
            refine ⟨lt_trans helt hMlt, f, rest, ?_, hcg⟩
            rw [List.filter_append]
            have hbno : (bucketNo b.time == e.1) = false := by
              rw [beq_eq_false_iff_ne]
              omega
            simp only [List.filter_cons, List.filter_nil, hbno]
            simpa using hfil
          · simp only [List.mem_singleton] at he
            subst he
            refine ⟨hMlt, h, t, ?_, rfl⟩
            rw [List.filter_append]
            have hbno : (bucketNo b.time ==  bucketNo last.time) = false := by
              rw [beq_eq_false_iff_ne]
              exact hEq
            simp only [List.filter_cons, List.filter_nil, hbno]
            rw [← hbuf, hbt]
            simp

/-- C5: for every finite stream of 5-second bars (with nonnegative unix
timestamps, delivered in time order, as a realtime bar subscription
produces them), each emitted 5-minute bar labelled `e.1` aggregates exactly
the bars of its bucket: its open is the first such bar's open, its high is
the maximum high, its low the minimum low, its close the last bar's close
and its volume the sum of volumes over exactly the stream's bars in that
bucket (`e.1 = bucketNo f.time`, i.e. the label of `⌊t/300⌋`); no bucket is
emitted twice; and an emission happens only when a bar of a strictly later
bucket than the buffered front arrives. -/
theorem c5_bar_aggregation (stream : List Bar)
    (hpos : ∀ x ∈ stream, 0 ≤ x.time)
    (hsort : List.Pairwise (fun x y => x.time ≤ y.time) stream) :
    (∀ e ∈ (runBars stream).2,
      ∃ f rest, stream.filter (fun x => bucketNo x.time == e.1) = f :: rest ∧
        e.1 = bucketNo f.time ∧
        e.2.openP = f.openP ∧
        (e.2.highP ∈ (f :: rest).map Bar.highP ∧
          ∀ x ∈ f :: rest, x.highP ≤ e.2.highP) ∧
        (e.2.lowP ∈ (f :: rest).map Bar.lowP ∧
          ∀ x ∈ f :: rest, e.2.lowP ≤ x.lowP) ∧
        (∃ lastBar, (f :: rest).getLast? = some lastBar ∧
          e.2.closeP = lastBar.closeP) ∧
        e.2.volume = ((f :: rest).map Bar.volume).sum) ∧
    List.Pairwise (fun a b => a ≠ b) ((runBars stream).2.map Prod.fst) ∧
    ∀ buf bnew, buf ≠ [] → (∀ x ∈ buf, 0 ≤ x.time) →
      (∀ x ∈ buf, x.time ≤ bnew.time) →
      (on_new_5sec_bar buf bnew).2 ≠ [] →
      ∃ h t, buf = h :: t ∧ bucketNo h.time < bucketNo bnew.time := by
  have third : ∀ buf bnew, buf ≠ [] → (∀ x ∈ buf, 0 ≤ x.time) →
      (∀ x ∈ buf, x.time ≤ bnew.time) →
      (on_new_5sec_bar buf bnew).2 ≠ [] →
      ∃ h t, buf = h :: t ∧ bucketNo h.time < bucketNo bnew.time := by
    intro buf bnew hb hbpos hble hem
    obtain ⟨h, t, hbt⟩ := List.exists_cons_of_ne_nil hb
    refine ⟨h, t, hbt, ?_⟩
    have hmem : h ∈ buf := by rw [hbt]; simp
    have hle : bucketNo h.time ≤ bucketNo bnew.time :=
      bucketNo_mono (hbpos h hmem) (hble h hmem)
    rcases lt_or_eq_of_le hle with hlt | heq
    · exact hlt
    · exfalso
      apply hem
      unfold on_new_5sec_bar
      rw [hbt, List.cons_append, drainBuckets_front_eq _ h (t ++ [bnew]) heq]
  by_cases hs : stream = []
  · subst hs
    refine ⟨?_, ?_, third⟩
    · intro e he
      simp [runBars] at he
    · simp [runBars]
  · obtain ⟨last, -, -, -, -, hpw, hems⟩ :=
      runBars_invariant stream hs hpos hsort
    refine ⟨?_, hpw.imp (fun hab => ne_of_lt hab), third⟩
    intro e he
    obtain ⟨-, f, rest, hfil, hcg⟩ := hems e he
    have hfmem : f ∈ stream.filter (fun x => bucketNo x.time == e.1) := by
      rw [hfil]
      simp
    have hfb : e.1 = bucketNo f.time := by
      have h2 := (List.mem_filter.mp hfmem).2
      exact (beq_iff_eq.mp h2).symm
    obtain ⟨ho, hh, hl, hc, hv⟩ := consolidateGroup_spec f rest
    rw [hcg]
    exact ⟨f, rest, hfil, hfb, ho, hh, hl, hc, hv⟩

/-- C5 witness: the S4 scenario stream satisfies the hypotheses and emits
exactly one consolidated bar, for the 09:30 bucket (label 34200), with
open 10, high 12, low 9, close 10.8 and volume 5. -/
theorem c5_bar_aggregation_witness :
    ((∀ x ∈ s4Stream, 0 ≤ x.time) ∧
      List.Pairwise (fun x y => x.time ≤ y.time) s4Stream) ∧
    (runBars s4Stream).2 =
      [(34200, { openP := 10, highP := 12, lowP := 9, closeP := 54/5,
                 volume := 5 })] ∧
    List.Pairwise (fun a b => a ≠ b) ((runBars s4Stream).2.map Prod.fst) :=
  ⟨⟨by decide, by decide⟩,
   by norm_num [runBars, s4Stream, on_new_5sec_bar, mkBar, drainBuckets,
     bucketNo, consolidateGroup, mergeBarStep, initialConsolidatedBar,
     Int.tmod],
   (c5_bar_aggregation s4Stream (by decide) (by decide)).2.1⟩

/-! ## Claim C6 -/

/-- C6 counterexample: the claim states that on `qty_diff == 0` only the
open orders of the triggering instrument are cancelled and deleted.  The
handler fetches with `get_orders_for_strat`, which filters on the strategy
alone, and never consults the contract: triggered for strategy "momentum"
(on behalf of stock "AAA") against a table holding the same-strategy orders
`c6OrderA` on "AAA" and `c6OrderB` on "BBB", it deletes both rows and
cancels both order ids, so the order on the other instrument "BBB" is not
left unchanged. -/
theorem c6_qty_diff_zero_touches_other_instruments :
    c6OrderB.stock ≠ c6OrderA.stock ∧
    c6OrderB.strategy = c6OrderA.strategy ∧
    (on_new_stock_qty_diff_zero [c6OrderA, c6OrderB] "momentum").1 = [] ∧
    (on_new_stock_qty_diff_zero [c6OrderA, c6OrderB] "momentum").2 =
      [11, 22] := by
  refine ⟨by decide, by decide, by decide, by decide⟩

/-- Deleting, in turn, the row of every order in `L` from `tbl` removes
exactly the rows of `tbl` whose primary key occurs in `L`. -/
theorem foldl_deleteOpenOrder_eq_filter (L tbl : List OpenStockOrders) :
    L.foldl (fun t o => deleteOpenOrder t o.order_perm_id o.order_id) tbl =
      tbl.filter (fun r => !(L.any (fun o =>
        r.order_perm_id == o.order_perm_id && r.order_id == o.order_id))) := by
  induction L generalizing tbl with
  | nil => simp
  | cons x L ih =>
    rw [List.foldl_cons, ih]
    unfold deleteOpenOrder
    rw [List.filter_filter]
    apply List.filter_congr
    intro r _
    cases hx : (r.order_perm_id == x.order_perm_id && r.order_id == x.order_id) <;>
      simp [List.any_cons, hx]

/-- C6 amended: when the target-diff handler for a (strategy, contract)
receives `qty_diff == 0`, it cancels with the broker and deletes the
open-order rows of exactly the open orders of that *strategy* — on every
instrument, not only the triggering one (the fetch filters on strategy
alone).  Stated for a table with pairwise-distinct primary keys. -/
theorem c6_qty_diff_zero_cancels_all_strategy_orders
    (tbl : List OpenStockOrders) (strategy : String)
    (hkeys : List.Pairwise (fun a b =>
      a.order_perm_id ≠ b.order_perm_id ∨ a.order_id ≠ b.order_id) tbl) :
    (on_new_stock_qty_diff_zero tbl strategy).1 =
      tbl.filter (fun o => !(o.strategy == strategy)) ∧
    (on_new_stock_qty_diff_zero tbl strategy).2 =
      (tbl.filter (fun o => o.strategy == strategy)).map
        (fun o => o.order_id) := by
  refine ⟨?_, rfl⟩
  show (get_orders_for_strat tbl strategy).foldl
      (fun t o => deleteOpenOrder t o.order_perm_id o.order_id) tbl = _
  rw [foldl_deleteOpenOrder_eq_filter]
  apply List.filter_congr
  intro r hr
  have key : (get_orders_for_strat tbl strategy).any (fun o =>
      r.order_perm_id == o.order_perm_id && r.order_id == o.order_id) =
      (r.strategy == strategy) := by
    cases hs : (r.strategy == strategy) with
    | true =>
      simp only [List.any_eq_true, get_orders_for_strat, List.mem_filter]
      exact ⟨r, ⟨hr, hs⟩, by simp⟩
    | false =>
      simp only [List.any_eq_false, get_orders_for_strat, List.mem_filter]
      rintro o ⟨ho, hos⟩ hkey
      rw [Bool.and_eq_true] at hkey
      have hne : r ≠ o := by
        intro h
        rw [h, hos] at hs
        simp at hs
      have hsymm : Symmetric (fun a b : OpenStockOrders =>
          a.order_perm_id ≠ b.order_perm_id ∨ a.order_id ≠ b.order_id) := by
        intro a b hab
        rcases hab with h | h
        · exact Or.inl (Ne.symm h)
        · exact Or.inr (Ne.symm h)
      have hR := (List.Pairwise.forall hsymm hkeys) hr ho hne
      rcases hR with h | h
      · exact h (by simpa using hkey.1)
      · exact h (by simpa using hkey.2)
  rw [key]

/-- C6 witness for the amended theorem: applied to the two-order table with
distinct keys; both rows carry strategy "momentum" so the resulting table is
empty. -/
theorem c6_qty_diff_zero_cancels_all_strategy_orders_witness :
    List.Pairwise (fun a b : OpenStockOrders =>
      a.order_perm_id ≠ b.order_perm_id ∨ a.order_id ≠ b.order_id)
      [c6OrderA, c6OrderB] ∧
    (on_new_stock_qty_diff_zero [c6OrderA, c6OrderB] "momentum").1 =
      List.filter (fun o => !(o.strategy == "momentum"))
        [c6OrderA, c6OrderB] :=
  ⟨by decide,
   (c6_qty_diff_zero_cancels_all_strategy_orders [c6OrderA, c6OrderB]
     "momentum" (by decide)).1⟩

/-! ## Claim C7 -/

/-- C7 counterexample: the claim states that after a flush attempt that
returns an error the buffered rows are retained.  Feeding the 200000th row
with the flush failing (`flushOk = false`): a flush is attempted, yet the
resulting buffer is empty — the 200000 buffered rows are dropped, because
the source runs `buffer.clear()` unconditionally after the attempt. -/
theorem c7_failed_flush_clears_buffer :
    (batchStep { buffer := List.replicate 199999 histRow0, finished := false }
        (BatchEvent.recv histRow0) false).2 = true ∧
    (batchStep { buffer := List.replicate 199999 histRow0, finished := false }
        (BatchEvent.recv histRow0) false).1.buffer = [] ∧
    List.replicate 199999 histRow0 ++ [histRow0] ≠
      ([] : List HistoricalData) := by
  have hlen : (List.replicate 199999 histRow0 ++ [histRow0]).length = 200000 := by
    rw [List.length_append, List.length_replicate]
    simp
  have main : batchStep
      { buffer := List.replicate 199999 histRow0, finished := false }
      (BatchEvent.recv histRow0) false =
      ({ buffer := [], finished := false }, true) := by
    simp only [batchStep]
    rw [hlen]
    norm_num [BATCH_SIZE]
  refine ⟨by rw [main], by rw [main], ?_⟩
  intro hnil
  rw [hnil] at hlen
  simp at hlen

/-- C7 amended: a flush is attempted exactly when (a) a received row brings
the buffer to 200000, (b) the timer fires with a non-empty buffer at least
1000 ms after the last flush, (c) the channel closes with a non-empty
buffer, or (d) a shutdown signal arrives with a non-empty buffer; the
outcome never depends on whether the flush succeeded, and after a flush
attempt in cases (a) and (b) the buffer is empty regardless of success (the
rows of a failed flush are dropped, not retained), while cases (c) and (d)
terminate the loop leaving the buffer in place. -/
theorem c7_flush_trigger_characterisation (s : BatchLoopState)
    (ev : BatchEvent) (ok ok2 : Bool) :
    batchStep s ev ok = batchStep s ev ok2 ∧
    ((batchStep s ev ok).2 = true ↔
      ((∃ row, ev = BatchEvent.recv row) ∧ BATCH_SIZE ≤ s.buffer.length + 1) ∨
      (ev = BatchEvent.chanClosed ∧ s.buffer ≠ []) ∨
      (ev = BatchEvent.shutdownSignal true ∧ s.buffer ≠ []) ∨
      (∃ ms, ev = BatchEvent.timerTick ms ∧ s.buffer ≠ [] ∧
        MAX_BATCH_WAIT_MS ≤ ms)) ∧
    (∀ row, ev = BatchEvent.recv row → (batchStep s ev ok).2 = true →
      (batchStep s ev ok).1.buffer = []) ∧
    (∀ ms, ev = BatchEvent.timerTick ms → (batchStep s ev ok).2 = true →
      (batchStep s ev ok).1.buffer = []) ∧
    (ev = BatchEvent.chanClosed ∨ ev = BatchEvent.shutdownSignal true →
      (batchStep s ev ok).1.finished = true ∧
      (batchStep s ev ok).1.buffer = s.buffer) := by
  refine ⟨rfl, ?_, ?_, ?_, ?_⟩
  · cases ev with
    | recv row =>
      by_cases hlen : BATCH_SIZE ≤ s.buffer.length + 1 <;>
        simp [batchStep, hlen, List.length_append]
    | chanClosed =>
      by_cases hbuf : s.buffer = [] <;>
        simp [batchStep, hbuf, List.isEmpty_iff]
    | shutdownSignal b =>
      cases b <;> by_cases hbuf : s.buffer = [] <;>
        simp [batchStep, hbuf, List.isEmpty_iff]
    | timerTick ms =>
      by_cases hbuf : s.buffer = [] <;>
        by_cases hms : MAX_BATCH_WAIT_MS ≤ ms <;>
          simp [batchStep, hbuf, hms, List.isEmpty_iff]
  · rintro row rfl
    by_cases hlen : BATCH_SIZE ≤ s.buffer.length + 1 <;>
      simp [batchStep, hlen, List.length_append]
  · rintro ms rfl
    by_cases hbuf : s.buffer = [] <;>
      by_cases hms : MAX_BATCH_WAIT_MS ≤ ms <;>
        simp [batchStep, hbuf, hms, List.isEmpty_iff]
  · rintro (rfl | rfl)
    · by_cases hbuf : s.buffer = [] <;>
        simp [batchStep, hbuf, List.isEmpty_iff]
    · by_cases hbuf : s.buffer = [] <;>
        simp [batchStep, hbuf, List.isEmpty_iff]

/-- C7 witness for the amended theorem: a closed channel with one buffered
row attempts a flush and terminates the loop with the buffer in place. -/
theorem c7_flush_trigger_characterisation_witness :
    (batchStep { buffer := [histRow0], finished := false }
        BatchEvent.chanClosed true).1.finished = true ∧
    (batchStep { buffer := [histRow0], finished := false }
        BatchEvent.chanClosed true).1.buffer = [histRow0] :=
  (c7_flush_trigger_characterisation
    { buffer := [histRow0], finished := false } BatchEvent.chanClosed true
    true).2.2.2.2 (Or.inl rfl)

/-! ## Claim C8 -/

/-- C8: `place_order` inserts the (strategy, contract, order) entry into
`order_map` under the new order id strictly before submitting to the broker
(the trace lists the map insert first), the submission failure case returns
an error, and after any call — successful or not — the order id maps to the
entry in `order_map`. -/
theorem c8_map_insert_before_submit
    (orderMap : List (Int × (String × Contract × Order))) (orderId : Int)
    (strategy : String) (contract : Contract) (order : Order)
    (submitOk : Bool) :
    (place_order orderMap orderId strategy contract order submitOk).2.1 =
      [PlaceOrderAction.mapInsert orderId,
       PlaceOrderAction.submitToBroker orderId] ∧
    lookupOrder
        (place_order orderMap orderId strategy contract order submitOk).1
        orderId = some (strategy, contract, order) ∧
    (place_order orderMap orderId strategy contract order false).2.2 =
      Except.error "Failed to place order" ∧
    (place_order orderMap orderId strategy contract order false).1 =
      (place_order orderMap orderId strategy contract order submitOk).1 := by
  refine ⟨rfl, ?_, rfl, rfl⟩
  simp [place_order, lookupOrder]

/-! ## Claim C9 -/

/-- C9: the handlers for OrderStatus "Submitted", "ApiCancelled",
"Cancelled" and for OpenOrder events require the order id to be present in
`order_map`: with the entry present they proceed to the upsert
(`on_new_order_submitted`) or delete (`on_order_cancelled`) of the
open-order row, and with it absent they panic through `expect` rather than
returning an error or routing to "unknown". -/
theorem c9_order_map_lookup_precondition
    (orderMap : List (Int × (String × Contract × Order)))
    (orderId permId : Int) :
    (lookupOrder orderMap orderId = none →
      (∀ status, status = "Submitted" ∨ status = "ApiCancelled" ∨
          status = "Cancelled" →
        on_order_update_received orderMap
            (OrderUpdate.orderStatus orderId permId status) =
          OrderUpdateOutcome.panicked orderMapPanicMsg) ∧
      ∀ stateStatus,
        on_order_update_received orderMap
            (OrderUpdate.openOrderEvent orderId permId stateStatus) =
          OrderUpdateOutcome.panicked orderMapPanicMsg) ∧
    ∀ so, lookupOrder orderMap orderId = some so →
      on_order_update_received orderMap
          (OrderUpdate.orderStatus orderId permId "Submitted") =
        on_new_order_submitted orderId permId so ∧
      on_order_update_received orderMap
          (OrderUpdate.orderStatus orderId permId "ApiCancelled") =
        on_order_cancelled orderId permId so ∧
      on_order_update_received orderMap
          (OrderUpdate.orderStatus orderId permId "Cancelled") =
        on_order_cancelled orderId permId so ∧
      ∀ stateStatus, stateStatus = "Submitted" ∨ stateStatus = "PreSubmitted" →
        on_order_update_received orderMap
            (OrderUpdate.openOrderEvent orderId permId stateStatus) =
          on_new_order_submitted orderId permId so := by
  have hsub : StatusOfOrderStatus.fromStr "Submitted" =
      StatusOfOrderStatus.submitted := rfl
  have hapi : StatusOfOrderStatus.fromStr "ApiCancelled" =
      StatusOfOrderStatus.apiCancelled := rfl
  have hcan : StatusOfOrderStatus.fromStr "Cancelled" =
      StatusOfOrderStatus.cancelled := rfl
  constructor
  · intro hnone
    constructor
    · rintro status (rfl | rfl | rfl) <;>
        simp [on_order_update_received, hsub, hapi, hcan, hnone]
    · intro stateStatus
      simp [on_order_update_received, hnone]
  · intro so hsome
    refine ⟨?_, ?_, ?_, ?_⟩
    · simp [on_order_update_received, hsub, hsome]
    · simp [on_order_update_received, hapi, hsome]
    · simp [on_order_update_received, hcan, hsome]
    · rintro stateStatus (rfl | rfl) <;>
        simp [on_order_update_received, hsome]

/-- C9 witness: with an empty `order_map`, an OrderStatus "Submitted" event
panics. -/
theorem c9_order_map_lookup_precondition_witness :
    lookupOrder ([] : List (Int × (String × Contract × Order))) 1 = none ∧
    on_order_update_received [] (OrderUpdate.orderStatus 1 2 "Submitted") =
      OrderUpdateOutcome.panicked orderMapPanicMsg :=
  ⟨rfl,
   ((c9_order_map_lookup_precondition [] 1 2).1 rfl).1 "Submitted"
     (Or.inl rfl)⟩

/-! ## Claim C10 -/

/-- C10 counterexample: the claim asserts the query returns true iff at
least `n` matching rows exist under the sole precondition `n ≥ 1`.  At
`n = 2^31 + 1` (a representable `u32`) over an empty table, `n - 1 = 2^31`
reinterpreted `as i32` is negative, so the comparison is trivially true even
though no rows exist — `n ≥ 1` alone is not sufficient. -/
theorem c10_n_ge_one_alone_insufficient :
    1 ≤ 2147483649 ∧
    has_at_least_n_rows_since [] "QQQ" "NASDAQ" 0 2147483649 = true ∧
    ¬(2147483649 ≤ countRowsSince [] "QQQ" "NASDAQ" 0) := by
  refine ⟨by norm_num, by decide, by decide⟩

/-- C10 amended: `has_at_least_n_rows_since` evaluates
`COUNT(*) > ((n-1) as i32)` with `n` an unsigned 32-bit integer, so it
returns true iff at least `n` rows newer than the cutoff exist only under
the precondition `1 ≤ n ≤ 2^31` (so that `n - 1` also fits in `i32`); for
`n = 0` the subtraction underflows — panicking in a debug build, and in a
release build wrapping so that the cast binds `-1` and the call trivially
returns true — and the backfill caller can reach `n = 0` because it passes
`(required_num_bars - 39).max(0)` (e.g. `days = 1` at 10:00 New York gives
`required_num_bars = 12`). -/
theorem c10_rows_since_needs_bounded_n (tbl : List HistoricalData)
    (stock exch : String) (cutoff : Int) (n : ℕ)
    (h1 : 1 ≤ n) (h2 : n ≤ 2147483648) :
    (has_at_least_n_rows_since tbl stock exch cutoff n = true ↔
      n ≤ countRowsSince tbl stock exch cutoff) ∧
    has_at_least_n_rows_since tbl stock exch cutoff 0 = true ∧
    has_at_least_n_rows_since_debug tbl stock exch cutoff 0 = none ∧
    requiredBarsArg (requiredNumBars 1 true 60) = 0 := by
  have hw : wrapSubOne n = n - 1 := by
    unfold wrapSubOne U32_MOD
    omega
  have htoi : toI32 (n - 1) = (n : Int) - 1 := by
    unfold toI32
    split
    · omega
    · omega
  refine ⟨?_, ?_, rfl, by decide⟩
  · rw [has_at_least_n_rows_since, hw, htoi, decide_eq_true_iff]
    omega
  · have h0 : toI32 (wrapSubOne 0) = -1 := by decide
    rw [has_at_least_n_rows_since, h0, decide_eq_true_iff]
    omega

/-- C10 witness for the amended theorem, at `n = 1` over a single-row
table whose row is newer than the cutoff. -/
theorem c10_rows_since_needs_bounded_n_witness :
    (1 ≤ 1 ∧ 1 ≤ 2147483648) ∧
    (has_at_least_n_rows_since [histRow0] "QQQ" "NASDAQ" (-5) 1 = true ↔
      1 ≤ countRowsSince [histRow0] "QQQ" "NASDAQ" (-5)) ∧
    has_at_least_n_rows_since [histRow0] "QQQ" "NASDAQ" (-5) 0 = true ∧
    has_at_least_n_rows_since_debug [histRow0] "QQQ" "NASDAQ" (-5) 0 =
      none ∧
    requiredBarsArg (requiredNumBars 1 true 60) = 0 :=
  ⟨⟨by norm_num, by norm_num⟩,
   c10_rows_since_needs_bounded_n [histRow0] "QQQ" "NASDAQ" (-5) 1
     (by norm_num) (by norm_num)⟩

end RustyTrader
